import Mathlib

/-
Verification of the Beam-Parameter Evaluator of `Gaussian_app.py`
(interactive Gaussian-beam optics lab).  The numeric core of the app is a
handful of closed-form formulas evaluated elementwise on coordinate grids;
they are embedded here over the real numbers, with `np.linspace` modelled
as the list of its exactly-spaced sample points.
-/

/-- Rayleigh range `z_r = π·w0²/λ` (Gaussian_app.py, line 40). -/
noncomputable def z_r (lam_um w0 : ℝ) : ℝ := Real.pi * w0 ^ 2 / lam_um

/-- Far-field divergence half-angle `theta_div = λ/(π·w0)` (line 41). -/
noncomputable def theta_div (lam_um w0 : ℝ) : ℝ := lam_um / (Real.pi * w0)

/-- Beam radius `w_z = w0·√(1 + (z/z_r)²)` (line 42; the same formula is
re-evaluated at a single slice coordinate as `w_at_slice`, line 81). -/
noncomputable def w_z (w0 zR z : ℝ) : ℝ := w0 * Real.sqrt (1 + (z / zR) ^ 2)

/-- Wavefront curvature radius as the code computes it, with the small
guard `1e-9` added to the denominator (line 43). -/
noncomputable def R_z (zR z : ℝ) : ℝ := z * (1 + (zR / (z + 1e-9)) ^ 2)

/-- Normalized transverse intensity `exp(-2r²/w²)` (line 85). -/
noncomputable def intensity (w r : ℝ) : ℝ := Real.exp (-2 * r ^ 2 / w ^ 2)

/-- `np.linspace a b n`: `n` evenly spaced samples from `a` to `b`,
the `k`-th being `a + k·(b-a)/(n-1)`. -/
noncomputable def linspace (a b : ℝ) (n : ℕ) : List ℝ :=
(List.range n).map fun k : ℕ => a + (k : ℝ) * ((b - a) / ((n : ℝ) - 1))

/-- Propagation grid (lines 36–37): 600 samples from `-z_max_um` to
`z_max_um`, where `z_max_um = z_max * 1000`. -/
noncomputable def z_axis (z_max_um : ℝ) : List ℝ := linspace (-z_max_um) z_max_um 600

/-- Radial grid for the transverse profile (line 84): 200 samples from
`-3w` to `3w`. -/
noncomputable def r_axis (w : ℝ) : List ℝ := linspace (-(3 * w)) (3 * w) 200

/-- The plotting mask for the curvature plot (line 148): a sample is kept
exactly when `|z| > 0.1·z_r`. -/
def mask (zR z : ℝ) : Prop := 0.1 * zR < |z|

/-! ### Helper lemmas about the grids -/

lemma z_axis_length (M : ℝ) : (z_axis M).length = 600 := by
  unfold z_axis linspace
  rw [List.length_map, List.length_range]

lemma z_axis_get (M : ℝ) (k : ℕ) (h : k < (z_axis M).length) :
    (z_axis M)[k] = -M + k * (2 * M / 599) := by
  simp only [z_axis, linspace, List.getElem_map, List.getElem_range]
  have h599 : ((600 : ℕ) : ℝ) - 1 = 599 := by norm_num
  rw [h599]
  ring

lemma r_axis_length (w : ℝ) : (r_axis w).length = 200 := by
  unfold r_axis linspace
  rw [List.length_map, List.length_range]

lemma r_axis_get (w : ℝ) (k : ℕ) (h : k < (r_axis w).length) :
    (r_axis w)[k] = -(3 * w) + k * (6 * w / 199) := by
  simp only [r_axis, linspace, List.getElem_map, List.getElem_range]
  have h199 : ((200 : ℕ) : ℝ) - 1 = 199 := by norm_num
  rw [h199]
  ring

/-- No propagation sample is exactly zero: the 600-point grid has no
midpoint, since `2k = 599` has no natural solution. -/
lemma z_axis_get_ne_zero (M : ℝ) (hM : 0 < M) (k : ℕ)
    (h : k < (z_axis M).length) : (z_axis M)[k] ≠ 0 := by
  rw [z_axis_get]
  intro hzero
  have hMne : M ≠ 0 := ne_of_gt hM
  have h1 : (k : ℝ) * (2 * M) = 599 * M := by linear_combination 599 * hzero
  have h2 : ((k : ℝ) * 2) * M = 599 * M := by rw [mul_assoc]; exact h1
  have hk2 : (k : ℝ) * 2 = 599 := mul_right_cancel₀ hMne h2
  have hcast : ((k * 2 : ℕ) : ℝ) = ((599 : ℕ) : ℝ) := by push_cast; linarith
  have := Nat.cast_inj.mp hcast
  omega

/-- Reflecting the index across the grid negates the sample:
the propagation grid is antisymmetric. -/
lemma z_axis_get_reflect (M : ℝ) (k : ℕ) (hk : k < 600)
    (h1 : 599 - k < (z_axis M).length) (h2 : k < (z_axis M).length) :
    (z_axis M)[599 - k] = -(z_axis M)[k] := by
  rw [z_axis_get, z_axis_get]
  have hle : k ≤ 599 := by omega
  have hc : ((599 - k : ℕ) : ℝ) = 599 - (k : ℝ) := by
    rw [Nat.cast_sub hle]
    norm_num
  rw [hc]
  ring

/-- The beam radius is an even function of `z`. -/
lemma w_z_even (w0 zR z : ℝ) : w_z w0 zR z = w_z w0 zR (-z) := by
  unfold w_z
  rw [neg_div, neg_sq]

/-- C8: at the waist (`z = 0`) the beam radius equals `w0`, and `w0` is a
global lower bound for the beam radius: the waist is the minimum. -/
theorem beamRadius_waist_min (lam w0 : ℝ) (hl : 0 < lam) (hw : 0 < w0) :
    w_z w0 (z_r lam w0) 0 = w0 ∧ ∀ z : ℝ, w0 ≤ w_z w0 (z_r lam w0) z := by
  constructor
  · unfold w_z
    norm_num
  · intro z
    unfold w_z
    have h1 : 1 ≤ Real.sqrt (1 + (z / z_r lam w0) ^ 2) := by
      apply Real.le_sqrt_of_sq_le
      nlinarith [sq_nonneg (z / z_r lam w0)]
    nlinarith [h1, hw]

/-- Witness for `beamRadius_waist_min` at `λ = 0.632`, `w0 = 10`. -/
theorem beamRadius_waist_min_witness : w_z 10 (z_r 0.632 10) 0 = 10 :=
(beamRadius_waist_min 0.632 10 (by norm_num) (by norm_num)).1

/-- C7: the beam radius is even in `z`, and mapping it over the symmetric
propagation grid gives a palindromic sequence: reversing the sampled
sequence returns the same sequence. -/
theorem beamRadius_even_reverse (w0 zR : ℝ) (hw : 0 < w0) (hR : 0 < zR) :
    (∀ z : ℝ, w_z w0 zR z = w_z w0 zR (-z)) ∧
    ∀ M : ℝ, ((z_axis M).map (w_z w0 zR)).reverse = (z_axis M).map (w_z w0 zR) := by
  refine ⟨w_z_even w0 zR, ?_⟩
  intro M
  apply List.ext_getElem
  · rw [List.length_reverse]
  · intro i h1 h2
    rw [List.getElem_reverse]
    have hlen : ((z_axis M).map (w_z w0 zR)).length = 600 := by
      rw [List.length_map, z_axis_length]
    have hi : i < 600 := by rw [hlen] at h2; exact h2
    have hidx : ((z_axis M).map (w_z w0 zR)).length - 1 - i = 599 - i := by
      rw [hlen]
    simp only [hidx]
    have hb1 : 599 - i < (z_axis M).length := by rw [z_axis_length]; omega
    have hb2 : i < (z_axis M).length := by rw [z_axis_length]; omega
    rw [List.getElem_map, List.getElem_map]
    rw [z_axis_get_reflect M i hi hb1 hb2]
    exact (w_z_even w0 zR _).symm

/-- Witness for `beamRadius_even_reverse` at `w0 = 1`, `z_R = 1`, `z = 5`. -/
theorem beamRadius_even_reverse_witness : w_z 1 1 5 = w_z 1 1 (-5) :=
(beamRadius_even_reverse 1 1 (by norm_num) (by norm_num)).1 5

/-- C6: the transverse intensity is `exp(-2r²/w²)` evaluated elementwise
(same length, `k`-th element is the formula at the `k`-th radius), its
value at `r = 0` is `1`, and it is strictly decreasing in `|r|` on
`r ≥ 0`. -/
theorem transverseIntensity_spec (w : ℝ) (hw : 0 < w) (rs : List ℝ) :
    intensity w 0 = 1 ∧
    (∀ r1 r2 : ℝ, 0 ≤ r1 → r1 < r2 → intensity w r2 < intensity w r1) ∧
    (rs.map (intensity w)).length = rs.length ∧
    ∀ (k : ℕ) (hk : k < rs.length) (hk2 : k < (rs.map (intensity w)).length),
      (rs.map (intensity w))[k] = Real.exp (-2 * rs[k] ^ 2 / w ^ 2) := by
  refine ⟨?_, ?_, ?_, ?_⟩
  · unfold intensity
    norm_num
  · intro r1 r2 h0 h12
    unfold intensity
    apply Real.exp_lt_exp.mpr
    have hw2 : 0 < w ^ 2 := by positivity
    rw [div_lt_div_iff_of_pos_right hw2]
    nlinarith [h0, h12]
  · rw [List.length_map]
  · intro k hk hk2
    rw [List.getElem_map]
    rfl

/-- Witness for `transverseIntensity_spec` at `w = 1`, radii `0 < 1`. -/
theorem transverseIntensity_spec_witness : intensity 1 1 < intensity 1 0 :=
(transverseIntensity_spec 1 (by norm_num) []).2.1 0 1 (by norm_num) (by norm_num)

/-- C2 counterexample: the code's curvature at `z_R = 1`, `z = 1` is not
the exact textbook value `z·(1 + (z_R/z)²) = 2`, because of the `1e-9`
guard added to the denominator. -/
theorem curvatureRadius_not_exact : R_z 1 1 ≠ 1 * (1 + ((1 : ℝ) / 1) ^ 2) := by
  unfold R_z
  intro h
  norm_num at h

/-- C2 (amended): for `z_R > 0` and `z ≠ 0` the code returns exactly
`z·(1 + (z_R/(z + 1e-9))²)` — the epsilon-guarded variant of
`z·(1 + (z_R/z)²)` — and at `z_R = z = 1` the guarded value differs from
the exact value `2` by less than `1e-8`. -/
theorem curvatureRadius_guarded (zR z : ℝ) (hR : 0 < zR) (hz : z ≠ 0) :
    R_z zR z = z * (1 + (zR / (z + 1e-9)) ^ 2) ∧ |R_z 1 1 - 2| < 1e-8 := by
  constructor
  · rfl
  · unfold R_z
    rw [abs_lt]
    norm_num

/-- Witness for `curvatureRadius_guarded` at `z_R = 1`, `z = 1`. -/
theorem curvatureRadius_guarded_witness : |R_z 1 1 - 2| < 1e-8 :=
(curvatureRadius_guarded 1 1 (by norm_num) (by norm_num)).2

/-- Rational bracketing of the Rayleigh range at `λ = 0.632`, `w0 = 10`,
from the decimal bounds on `π`. -/
lemma z_r_concrete_bounds : 497.087 < z_r 0.632 10 ∧ z_r 0.632 10 < 497.088 := by
  unfold z_r
  have hpi1 : 3.141592 < Real.pi := Real.pi_gt_d6
  have hpi2 : Real.pi < 3.141593 := Real.pi_lt_d6
  constructor
  · rw [lt_div_iff₀ (by norm_num : (0 : ℝ) < 0.632)]
    nlinarith [hpi1]
  · rw [div_lt_iff₀ (by norm_num : (0 : ℝ) < 0.632)]
    nlinarith [hpi2]

/-- C4: the Rayleigh range is `π·w0²/λ`, and at `λ = 0.632 μm`,
`w0 = 10 μm` its value is within `0.3 μm` of the quoted `496.82 μm`
(the exact value is `≈ 497.0874`). -/
theorem rayleighRange_spec (lam w0 : ℝ) (hl : 0 < lam) (hw : 0 < w0) :
    z_r lam w0 = Real.pi * w0 ^ 2 / lam ∧ |z_r 0.632 10 - 496.82| < 0.3 := by
  refine ⟨rfl, ?_⟩
  rw [abs_lt]
  have h := z_r_concrete_bounds
  constructor
  · linarith [h.1]
  · linarith [h.2]

/-- Witness for `rayleighRange_spec` at `λ = 0.632`, `w0 = 10`. -/
theorem rayleighRange_spec_witness : |z_r 0.632 10 - 496.82| < 0.3 :=
(rayleighRange_spec 0.632 10 (by norm_num) (by norm_num)).2

/-- Rational bracketing of the divergence angle at `λ = 0.632`, `w0 = 10`. -/
lemma theta_div_concrete_bounds :
    0.0201 < theta_div 0.632 10 ∧ theta_div 0.632 10 < 0.0202 := by
  unfold theta_div
  have hpi1 : 3.141592 < Real.pi := Real.pi_gt_d6
  have hpi2 : Real.pi < 3.141593 := Real.pi_lt_d6
  have hpos : (0 : ℝ) < Real.pi * 10 := by positivity
  constructor
  · rw [lt_div_iff₀ hpos]
    nlinarith [hpi2]
  · rw [div_lt_iff₀ hpos]
    nlinarith [hpi1]

/-- C5: the divergence angle is `λ/(π·w0)` radians, and at `λ = 0.632 μm`,
`w0 = 10 μm` it is within `0.0001 rad` of the quoted `0.02011 rad`. -/
theorem divergenceAngle_spec (lam w0 : ℝ) (hl : 0 < lam) (hw : 0 < w0) :
    theta_div lam w0 = lam / (Real.pi * w0) ∧
    |theta_div 0.632 10 - 0.02011| < 0.0001 := by
  refine ⟨rfl, ?_⟩
  rw [abs_lt]
  have h := theta_div_concrete_bounds
  constructor
  · linarith [h.1]
  · linarith [h.2]

/-- Witness for `divergenceAngle_spec` at `λ = 0.632`, `w0 = 10`. -/
theorem divergenceAngle_spec_witness : |theta_div 0.632 10 - 0.02011| < 0.0001 :=
(divergenceAngle_spec 0.632 10 (by norm_num) (by norm_num)).2

/-- At `λ = 0.632`, `w0 = 10`, `z = 496.82 ≈ z_R` the beam radius is
within `0.01` of `14.14 ≈ 10·√2`. -/
lemma w_z_concrete : |w_z 10 (z_r 0.632 10) 496.82 - 14.14| < 0.01 := by
  have hb := z_r_concrete_bounds
  set zR := z_r 0.632 10 with hzR
  have hzRpos : 0 < zR := by linarith [hb.1]
  have hr1 : 0.9994 < 496.82 / zR := by
    rw [lt_div_iff₀ hzRpos]
    nlinarith [hb.2]
  have hr2 : 496.82 / zR < 0.99947 := by
    rw [div_lt_iff₀ hzRpos]
    nlinarith [hb.1]
  have hq1 : (1.413 : ℝ) ^ 2 < 1 + (496.82 / zR) ^ 2 := by
    nlinarith [hr1, hr2, sq_nonneg (496.82 / zR - 0.9994)]
  have hq2 : 1 + (496.82 / zR) ^ 2 < (1.415 : ℝ) ^ 2 := by
    nlinarith [hr1, hr2]
  have hs1 : (1.413 : ℝ) < Real.sqrt (1 + (496.82 / zR) ^ 2) :=
    (Real.lt_sqrt (by norm_num)).mpr hq1
  have hs2 : Real.sqrt (1 + (496.82 / zR) ^ 2) < 1.415 :=
    (Real.sqrt_lt' (by norm_num)).mpr hq2
  unfold w_z
  rw [abs_lt]
  constructor
  · linarith [hs1]
  · linarith [hs2]

/-- C1: the beam radius is `w0·√(1+(z/z_R)²)`, elementwise evaluation over
a sequence of `z` samples preserves length and computes exactly that
formula at each index, and at the concrete scenario `λ = 0.632`,
`w0 = 10`, `z = 496.82` the value is within `0.01` of `14.14 ≈ 10·√2`. -/
theorem beamRadius_spec (w0 zR : ℝ) (hw : 0 < w0) (hR : 0 < zR) (zs : List ℝ) :
    (∀ z : ℝ, w_z w0 zR z = w0 * Real.sqrt (1 + (z / zR) ^ 2)) ∧
    (zs.map (w_z w0 zR)).length = zs.length ∧
    (∀ (k : ℕ) (hk : k < zs.length) (hk2 : k < (zs.map (w_z w0 zR)).length),
      (zs.map (w_z w0 zR))[k] = w0 * Real.sqrt (1 + (zs[k] / zR) ^ 2)) ∧
    |w_z 10 (z_r 0.632 10) 496.82 - 14.14| < 0.01 := by
  refine ⟨fun z => rfl, List.length_map zs _, ?_, w_z_concrete⟩
  intro k hk hk2
  rw [List.getElem_map]
  rfl

/-- Witness for `beamRadius_spec` at `w0 = 1`, `z_R = 1`, sequence `[0]`. -/
theorem beamRadius_spec_witness : |w_z 10 (z_r 0.632 10) 496.82 - 14.14| < 0.01 :=
(beamRadius_spec 1 1 (by norm_num) (by norm_num) [0]).2.2.2

/-- C9: for a positive range bound `z_max` (mm), the propagation grid over
`[-z_max·1000, z_max·1000]` has 600 samples, is antisymmetric under index
reflection (`k ↦ 599 - k`), and contains no sample equal to `0`;
membership form: no element of the grid is `0`, so the curvature
denominator `z + 1e-9` is never evaluated at `z = 0`. -/
theorem z_axis_grid_spec (z_max : ℝ) (hpos : 0 < z_max) :
    (z_axis (z_max * 1000)).length = 600 ∧
    (∀ (k : ℕ) (hk : k < 600) (h1 : 599 - k < (z_axis (z_max * 1000)).length)
      (h2 : k < (z_axis (z_max * 1000)).length),
      (z_axis (z_max * 1000))[599 - k] = -(z_axis (z_max * 1000))[k] ∧
      (z_axis (z_max * 1000))[k] ≠ 0) ∧
    ∀ z ∈ z_axis (z_max * 1000), z ≠ 0 := by
  have hM : (0 : ℝ) < z_max * 1000 := by linarith
  refine ⟨z_axis_length _, ?_, ?_⟩
  · intro k hk h1 h2
    exact ⟨z_axis_get_reflect _ k hk h1 h2, z_axis_get_ne_zero _ hM k h2⟩
  · intro z hz
    obtain ⟨k, hk, hget⟩ := List.mem_iff_getElem.mp hz
    rw [← hget]
    exact z_axis_get_ne_zero _ hM k hk

/-- Witness for `z_axis_grid_spec` at `z_max = 1`. -/
theorem z_axis_grid_spec_witness : (z_axis (1 * 1000)).length = 600 :=
(z_axis_grid_spec 1 (by norm_num)).1

/-- The guarded curvature denominator is nonzero at every grid sample,
for any range bound of at least `1 mm` (`M = z_max·1000 ≥ 1000`): every
sample is at distance at least `M/599` from `0`, far above `1e-9`. -/
lemma z_axis_den_ne (M : ℝ) (hM : 1000 ≤ M) (k : ℕ)
    (h : k < (z_axis M).length) : (z_axis M)[k] + 1e-9 ≠ 0 := by
  rw [z_axis_get]
  have hk600 : k < 600 := by rwa [z_axis_length] at h
  rcases le_or_lt k 299 with hc | hc
  · have hkr : (k : ℝ) ≤ 299 := by exact_mod_cast hc
    have hkM : (k : ℝ) * M ≤ 299 * M :=
      mul_le_mul_of_nonneg_right hkr (by linarith)
    have hneg : -M + (k : ℝ) * (2 * M / 599) + 1e-9 < 0 := by linarith
    exact ne_of_lt hneg
  · have hkr : (300 : ℝ) ≤ (k : ℝ) := by exact_mod_cast hc
    have hkM : (300 : ℝ) * M ≤ (k : ℝ) * M :=
      mul_le_mul_of_nonneg_right hkr (by linarith)
    have hgt : 0 < -M + (k : ℝ) * (2 * M / 599) + 1e-9 := by linarith
    exact ne_of_gt hgt

/-- C3: the curvature computation is guarded.  The guarded denominator is
nonzero at the coordinate `z = 0` itself, it is nonzero at every grid
sample (range bound at least the UI minimum of 1 mm), and every sample
within `|z| ≤ 0.1·z_R` of the waist fails the plotting mask, i.e. is
excluded before the curvature sequence is rendered. -/
theorem curvature_guard_mask (z_max zR : ℝ) (hz : 1 ≤ z_max) :
    ((0 : ℝ) + 1e-9 ≠ 0) ∧
    ∀ z ∈ z_axis (z_max * 1000),
      z + 1e-9 ≠ 0 ∧ (|z| ≤ 0.1 * zR → ¬ mask zR z) := by
  have hM : (1000 : ℝ) ≤ z_max * 1000 := by linarith
  refine ⟨by norm_num, ?_⟩
  intro z hzmem
  obtain ⟨k, hk, hget⟩ := List.mem_iff_getElem.mp hzmem
  constructor
  · rw [← hget]
    exact z_axis_den_ne _ hM k hk
  · intro hle hmask
    unfold mask at hmask
    linarith

/-- Witness for `curvature_guard_mask` at `z_max = 1`, `z_R = 1`. -/
theorem curvature_guard_mask_witness : (0 : ℝ) + 1e-9 ≠ 0 :=
(curvature_guard_mask 1 1 le_rfl).1

/-- Every radial sample lies in `[-3w, 3w]` and none is `0`: the 200-point
grid has no midpoint, since `6k = 597` has no natural solution. -/
lemma r_axis_mem_bounds (w : ℝ) (hw : 0 < w) (r : ℝ) (hr : r ∈ r_axis w) :
    -(3 * w) ≤ r ∧ r ≤ 3 * w ∧ r ≠ 0 := by
  obtain ⟨k, hk, hget⟩ := List.mem_iff_getElem.mp hr
  rw [← hget, r_axis_get]
  have hk200 : k < 200 := by rwa [r_axis_length] at hk
  have hkr : (k : ℝ) ≤ 199 := by
    have : k ≤ 199 := by omega
    exact_mod_cast this
  have hk0 : (0 : ℝ) ≤ (k : ℝ) := Nat.cast_nonneg k
  have hkw0 : 0 ≤ (k : ℝ) * w := mul_nonneg hk0 hw.le
  have hkw199 : (k : ℝ) * w ≤ 199 * w := mul_le_mul_of_nonneg_right hkr hw.le
  refine ⟨by linarith, by linarith, ?_⟩
  intro h0
  have h1 : (k : ℝ) * (6 * w) = 597 * w := by linear_combination 199 * h0
  have h2 : ((k : ℝ) * 6) * w = 597 * w := by rw [mul_assoc]; exact h1
  have hk6 : (k : ℝ) * 6 = 597 := mul_right_cancel₀ (ne_of_gt hw) h2
  have hcast : ((k * 6 : ℕ) : ℝ) = ((597 : ℕ) : ℝ) := by push_cast; linarith
  have := Nat.cast_inj.mp hcast
  omega

/-- C10: for any beam width `w > 0`, the 200 intensity samples over the
radial grid all lie in `[exp(-18), 1)`: each is strictly positive, at
least `exp(-18)` (attained at the endpoints `r = ±3w`), and strictly
below the peak `1`, because `r = 0` is not a grid point. -/
theorem intensity_samples_spec (w : ℝ) (hw : 0 < w) :
    ((r_axis w).map (intensity w)).length = 200 ∧
    (∀ x ∈ (r_axis w).map (intensity w),
      Real.exp (-18) ≤ x ∧ 0 < x ∧ x < 1) ∧
    ∀ r ∈ r_axis w, r ≠ 0 := by
  refine ⟨by rw [List.length_map, r_axis_length], ?_, ?_⟩
  · intro x hx
    obtain ⟨r, hr, hxr⟩ := List.mem_map.mp hx
    rw [← hxr]
    obtain ⟨hlb, hub, hne⟩ := r_axis_mem_bounds w hw r hr
    have hw2 : 0 < w ^ 2 := by positivity
    refine ⟨?_, Real.exp_pos _, ?_⟩
    · unfold intensity
      apply Real.exp_le_exp.mpr
      rw [le_div_iff₀ hw2]
      nlinarith [hlb, hub]
    · unfold intensity
      apply Real.exp_lt_one_iff.mpr
      apply div_neg_of_neg_of_pos _ hw2
      have hr2 : 0 < r ^ 2 := lt_of_le_of_ne (sq_nonneg r) (Ne.symm (pow_ne_zero 2 hne))
      linarith
  · intro r hr
    exact (r_axis_mem_bounds w hw r hr).2.2

/-- Witness for `intensity_samples_spec` at `w = 1`. -/
theorem intensity_samples_spec_witness : ((r_axis 1).map (intensity 1)).length = 200 :=
(intensity_samples_spec 1 (by norm_num)).1
